import Mathlib

/-!
Shallow embedding of the session/vote state model of `src/server.js`
(a minimal photo-sharing and voting service).

JavaScript objects used as string-keyed maps (`sessions`, `session.votes`)
are modelled as association lists `List (String × α)` that preserve key
insertion order, which is how JS objects enumerate string keys.
`sessions[k]` is `alookup`, `sessions[k] = v` is `aset` (updates the value
in place if the key exists, otherwise appends the key at the end).
JS arrays are `List`, `Array.prototype.filter` is `List.filter`,
`push` is append, and the (stable, per ECMA-262) `Array.prototype.sort`
with comparator `c` is `List.mergeSort` with `le a b := c a b ≤ 0`.
-/

namespace PhotoVote

/-- `m[k]` on a JS object modelled as an insertion-ordered assoc list. -/
def alookup (m : List (String × α)) (k : String) : Option α :=
  match m with
  | [] => none
  | (k', v) :: rest => if k' = k then some v else alookup rest k

/-- `m[k] = v` on a JS object: overwrite in place if the key exists,
append at the end otherwise (JS string keys keep insertion order). -/
def aset (m : List (String × α)) (k : String) (v : α) : List (String × α) :=
  match m with
  | [] => [(k, v)]
  | (k', v') :: rest => if k' = k then (k', v) :: rest else (k', v') :: aset rest k v

@[simp] theorem alookup_nil (k : String) : alookup ([] : List (String × α)) k = none := rfl

theorem alookup_aset (m : List (String × α)) (k k' : String) (v : α) :
    alookup (aset m k v) k' = if k = k' then some v else alookup m k' := by
  induction m with
  | nil =>
    by_cases h : k = k' <;> simp [aset, alookup, h]
  | cons hd tl ih =>
    obtain ⟨k₀, v₀⟩ := hd
    by_cases h0 : k₀ = k
    · by_cases h1 : k = k'
      · simp [aset, alookup, h0, h1, h0.trans h1]
      · have h2 : ¬ k₀ = k' := fun e => h1 ((h0.symm.trans e))
        simp [aset, alookup, h0, h1, h2]
    · by_cases h1 : k₀ = k'
      · have h2 : ¬ k = k' := fun e => h0 (h1.trans e.symm)
        have h3 : ¬ k' = k := fun e => h2 e.symm
        simp [aset, alookup, h0, h1, h2, h3]
      · simp [aset, alookup, h0, h1, ih]

@[simp] theorem alookup_aset_self (m : List (String × α)) (k : String) (v : α) :
    alookup (aset m k v) k = some v := by
  simp [alookup_aset]

theorem alookup_aset_ne (m : List (String × α)) {k k' : String} (h : k ≠ k') (v : α) :
    alookup (aset m k v) k' = alookup m k' := by
  simp [alookup_aset, h]

theorem aset_aset (m : List (String × α)) (k : String) (v v' : α) :
    aset (aset m k v) k v' = aset m k v' := by
  induction m with
  | nil => simp [aset]
  | cons hd tl ih =>
    obtain ⟨k₀, v₀⟩ := hd
    by_cases h0 : k₀ = k <;> simp [aset, h0, ih]

/-- Keys of an assoc list, in order. -/
def akeys (m : List (String × α)) : List String := m.map Prod.fst

/-! ## Data model (§3 of the state model)

`Photo`, `VoteRecord` and session documents, as built by `src/server.js`.
The `createdAt` ISO timestamp is modelled as a `Nat` (milliseconds since
epoch); ISO-8601 strings of the code compare consistently with this. -/

/-- One uploaded image record, as built in `app.post('/api/upload/:sessionId')`:
`{ id, filename, originalName, path, size }`. -/
structure Photo where
  id : String
  filename : String
  originalName : String
  path : String
  size : Nat
deriving DecidableEq, Repr

/-- Per-photo tally state `{ upvotes: [], downvotes: [] }`: JS arrays of
voter identifier strings. -/
structure VoteRecord where
  upvotes : List String
  downvotes : List String
deriving DecidableEq, Repr

/-- One session document, as created by `app.post('/api/session')`:
`{ photos, votes, createdAt, userId, name }`. -/
structure Session where
  photos : List Photo
  votes : List (String × VoteRecord)
  createdAt : Nat
  userId : String
  name : String
deriving DecidableEq, Repr

/-! ## Persistence layer

`saveSession` runs `JSON.stringify` on the session document and overwrites
`sessions/<id>.json`; `loadSession` reads and `JSON.parse`s it. The disk is
modelled as a map from session identifier to the parsed JSON document. -/

/-- A JSON document, as produced by `JSON.stringify` on the session
documents of this program (only strings, numbers, arrays, objects occur). -/
inductive Json where
  | str : String → Json
  | num : Nat → Json
  | arr : List Json → Json
  | obj : List (String × Json) → Json
deriving Repr

def Json.getStr : Json → Option String
  | .str s => some s
  | _ => none

def Json.getNat : Json → Option Nat
  | .num n => some n
  | _ => none

def Json.getArr : Json → Option (List Json)
  | .arr l => some l
  | _ => none

def Json.getObj : Json → Option (List (String × Json))
  | .obj m => some m
  | _ => none

/-- Field access on a JSON object. -/
def jfield (j : Json) (k : String) : Option Json :=
  match j with
  | .obj m => alookup m k
  | _ => none

/-- Map a fallible decoder over a list, failing if any element fails. -/
def optMap (g : α → Option β) : List α → Option (List β)
  | [] => some []
  | a :: l =>
    match g a with
    | none => none
    | some b => (optMap g l).map (fun bl => b :: bl)

theorem optMap_map {f : α → β} {g : β → Option α}
    (h : ∀ a, g (f a) = some a) (l : List α) : optMap g (l.map f) = some l := by
  induction l with
  | nil => rfl
  | cons a l ih => simp [optMap, h, ih]

def encodePhoto (p : Photo) : Json :=
  .obj [("id", .str p.id), ("filename", .str p.filename),
        ("originalName", .str p.originalName), ("path", .str p.path),
        ("size", .num p.size)]

def decodePhoto (j : Json) : Option Photo := do
  let id ← (jfield j "id").bind Json.getStr
  let filename ← (jfield j "filename").bind Json.getStr
  let originalName ← (jfield j "originalName").bind Json.getStr
  let path ← (jfield j "path").bind Json.getStr
  let size ← (jfield j "size").bind Json.getNat
  pure { id := id, filename := filename, originalName := originalName,
         path := path, size := size }

def encodeVoteRecord (v : VoteRecord) : Json :=
  .obj [("upvotes", .arr (v.upvotes.map .str)),
        ("downvotes", .arr (v.downvotes.map .str))]

def decodeVoteRecord (j : Json) : Option VoteRecord := do
  let ups ← (jfield j "upvotes").bind Json.getArr
  let upvotes ← optMap Json.getStr ups
  let downs ← (jfield j "downvotes").bind Json.getArr
  let downvotes ← optMap Json.getStr downs
  pure { upvotes := upvotes, downvotes := downvotes }

def encodeSession (s : Session) : Json :=
  .obj [("photos", .arr (s.photos.map encodePhoto)),
        ("votes", .obj (s.votes.map (fun p => (p.1, encodeVoteRecord p.2)))),
        ("createdAt", .num s.createdAt),
        ("userId", .str s.userId),
        ("name", .str s.name)]

def decodeSession (j : Json) : Option Session := do
  let pjs ← (jfield j "photos").bind Json.getArr
  let photos ← optMap decodePhoto pjs
  let vobj ← (jfield j "votes").bind Json.getObj
  let votes ← optMap (fun p => (decodeVoteRecord p.2).map (fun v => (p.1, v))) vobj
  let createdAt ← (jfield j "createdAt").bind Json.getNat
  let userId ← (jfield j "userId").bind Json.getStr
  let name ← (jfield j "name").bind Json.getStr
  pure { photos := photos, votes := votes, createdAt := createdAt,
         userId := userId, name := name }

theorem decodePhoto_encodePhoto (p : Photo) : decodePhoto (encodePhoto p) = some p := by
  simp [decodePhoto, encodePhoto, jfield, alookup, Json.getStr, Json.getNat]

theorem decodeVoteRecord_encodeVoteRecord (v : VoteRecord) :
    decodeVoteRecord (encodeVoteRecord v) = some v := by
  have hs : ∀ a : String, Json.getStr (Json.str a) = some a := fun _ => rfl
  simp [decodeVoteRecord, encodeVoteRecord, jfield, alookup, Json.getArr, optMap_map hs]

theorem optMap_encoded_votes (votes : List (String × VoteRecord)) :
    optMap (fun p => Option.map (fun v => (p.1, v)) (decodeVoteRecord p.2))
      (List.map (fun p => (p.1, encodeVoteRecord p.2)) votes) = some votes := by
  induction votes with
  | nil => rfl
  | cons a l ih => simp [optMap, decodeVoteRecord_encodeVoteRecord, ih]

theorem decodeSession_encodeSession (s : Session) :
    decodeSession (encodeSession s) = some s := by
  simp [decodeSession, encodeSession, jfield, alookup, Json.getArr, Json.getObj,
        Json.getNat, Json.getStr, optMap_map decodePhoto_encodePhoto,
        optMap_encoded_votes]

/-! ## Server state and the route handlers -/

/-- The whole mutable state of the process: the in-memory `sessions` object
and the `sessions/` directory on disk (parsed JSON documents per id). -/
structure ServerState where
  sessions : List (String × Session)
  disk : List (String × Json)

/-- `saveSession(sessionId)`: `JSON.stringify(sessions[sessionId])` written
over the session's file. All call sites have the session in memory, so the
missing-session branch (where `JSON.stringify(undefined)` would make
`writeFileSync` throw) is unreachable and modelled as a no-op. -/
def saveSession (st : ServerState) (sessionId : String) : ServerState :=
  match alookup st.sessions sessionId with
  | some sess => { st with disk := aset st.disk sessionId (encodeSession sess) }
  | none => st

/-- `loadSession(sessionId)`: if the session's file exists, parse it into
the in-memory map and report success; otherwise report failure. -/
def loadSession (st : ServerState) (sessionId : String) : Option ServerState :=
  match alookup st.disk sessionId with
  | none => none
  | some j =>
    match decodeSession j with
    | none => none
    | some sess => some { st with sessions := aset st.sessions sessionId sess }

/-! ## Vote ledger: `app.post('/api/vote/:sessionId')` -/

/-- The vote route: 404 (`none`) when the session is not in memory (this
route never consults the disk); otherwise ensure a `VoteRecord` exists for
`photoId`, strip `voterId` from both arrays, re-add it according to the
`vote` string, store the record back, persist, and answer with the record. -/
def castVote (st : ServerState) (sessionId photoId voterId vote : String) :
    Option (ServerState × VoteRecord) :=
  match alookup st.sessions sessionId with
  | none => none
  | some sess =>
    let rec0 := (alookup sess.votes photoId).getD { upvotes := [], downvotes := [] }
    let up1 := rec0.upvotes.filter (fun id => id ≠ voterId)
    let down1 := rec0.downvotes.filter (fun id => id ≠ voterId)
    let rec1 : VoteRecord :=
      if vote = "up" then { upvotes := up1 ++ [voterId], downvotes := down1 }
      else if vote = "down" then { upvotes := up1, downvotes := down1 ++ [voterId] }
      else { upvotes := up1, downvotes := down1 }
    let sess' := { sess with votes := aset sess.votes photoId rec1 }
    let st' := { st with sessions := aset st.sessions sessionId sess' }
    some (saveSession st' sessionId, rec1)

/-! ## Session fetch: `app.get('/api/session/:sessionId')` -/

/-- The raw-session route: serve from memory, else lazily rehydrate from
disk, else 404 (`none`). -/
def getSessionRoute (st : ServerState) (sessionId : String) :
    Option (ServerState × Session) :=
  match alookup st.sessions sessionId with
  | some sess => some (st, sess)
  | none =>
    match loadSession st sessionId with
    | some st' => (alookup st'.sessions sessionId).map (fun sess => (st', sess))
    | none => none

/-! ## Results ranker: `app.get('/api/results/:sessionId')` -/

/-- One entry of the results array: the photo fields spread together with
the tallies and the score. -/
structure PhotoResult where
  id : String
  filename : String
  originalName : String
  path : String
  size : Nat
  upvotes : Nat
  downvotes : Nat
  score : Int
deriving DecidableEq, Repr

/-- `{...photo, upvotes, downvotes, score}` for one photo, with a missing
`votes[photo.id]` entry defaulted to empty tallies. -/
def toPhotoResult (votes : List (String × VoteRecord)) (photo : Photo) : PhotoResult :=
  let v := (alookup votes photo.id).getD { upvotes := [], downvotes := [] }
  { id := photo.id, filename := photo.filename, originalName := photo.originalName,
    path := photo.path, size := photo.size,
    upvotes := v.upvotes.length, downvotes := v.downvotes.length,
    score := (v.upvotes.length : Int) - (v.downvotes.length : Int) }

/-- Comparator `(a, b) => b.score - a.score` turned into the `le` relation
of a stable sort: `a` may come before `b` iff `b.score - a.score ≤ 0`. -/
def scoreDescLe (a b : PhotoResult) : Bool := decide (b.score ≤ a.score)

/-- `photos.map(...).sort((a, b) => b.score - a.score)`; `Array.sort` is
stable per ECMA-262, modelled by `List.mergeSort`. -/
def computeResults (sess : Session) : List PhotoResult :=
  (sess.photos.map (toPhotoResult sess.votes)).mergeSort scoreDescLe

/-- The results route: lazily rehydrate like the raw-session route, then
rank; 404 (`none`) when neither memory nor disk has the session. -/
def resultsRoute (st : ServerState) (sessionId : String) :
    Option (ServerState × List PhotoResult) :=
  match alookup st.sessions sessionId with
  | some sess => some (st, computeResults sess)
  | none =>
    match loadSession st sessionId with
    | some st' => (alookup st'.sessions sessionId).map
        (fun sess => (st', computeResults sess))
    | none => none

/-! ## Project directory: `app.get('/api/user/projects')` -/

/-- One element of the `projects` array. -/
structure ProjectSummary where
  id : String
  name : String
  createdAt : Nat
  photoCount : Nat
  voteCount : Nat
deriving DecidableEq, Repr

/-- `Object.keys(votes).reduce((total, photoId) => total + up.length + down.length, 0)`. -/
def sessionVoteCount (sess : Session) : Nat :=
  sess.votes.foldl (fun total p => total + p.2.upvotes.length + p.2.downvotes.length) 0

def toSummary (sessionId : String) (sess : Session) : ProjectSummary :=
  { id := sessionId, name := sess.name, createdAt := sess.createdAt,
    photoCount := sess.photos.length, voteCount := sessionVoteCount sess }

/-- Comparator `(a, b) => new Date(b.createdAt) - new Date(a.createdAt)`
as the `le` relation of a stable sort (newest first). -/
def createdDescLe (a b : ProjectSummary) : Bool := decide (b.createdAt ≤ a.createdAt)

/-- The project-listing route: empty list when no `userId` cookie came in;
otherwise filter the session map by owner, summarize, and sort newest
first. Never an error. -/
def listProjects (sessions : List (String × Session)) (userId : Option String) :
    List ProjectSummary :=
  match userId with
  | none => []
  | some uid =>
    ((sessions.filter (fun p => p.2.userId = uid)).map
      (fun p => toSummary p.1 p.2)).mergeSort createdDescLe

/-! ## Project rename: `app.put('/api/project/:sessionId')` -/

/-- JS `String.prototype.trim`: strip leading and trailing whitespace. -/
def jsTrim (s : String) : String :=
  String.mk (((s.toList.dropWhile Char.isWhitespace).reverse.dropWhile
    Char.isWhitespace).reverse)

/-- The rename route: 404 (`none`) for a session not in memory; otherwise
overwrite `name` with the trimmed new name and persist only when the body
`name` is truthy and trims to a non-empty string (`name && name.trim()`),
and answer with the (possibly unchanged) current name. -/
def renameRoute (st : ServerState) (sessionId : String) (name : Option String) :
    Option (ServerState × String) :=
  match alookup st.sessions sessionId with
  | none => none
  | some sess =>
    match name with
    | none => some (st, sess.name)
    | some n =>
      if n ≠ "" ∧ jsTrim n ≠ "" then
        let sess' := { sess with name := jsTrim n }
        let st' := { st with sessions := aset st.sessions sessionId sess' }
        some (saveSession st' sessionId, sess'.name)
      else
        some (st, sess.name)

/-! ## Upload recorder: multer configuration and `app.post('/api/upload/:sessionId')`

The multipart machinery is an external library; what `src/server.js`
configures is the `fileFilter` (extension and mime type must match the
regex `/jpeg|jpg|png|gif|webp/`, a substring test), `limits.fileSize`
(10 * 1024 * 1024 bytes) and the 100-file ceiling. Files stream in order;
the first violation aborts the whole request with the corresponding
`MulterError`, and only an error-free run reaches the handler body that
appends `Photo` records. The per-file generated `uuidv4()` identifier and
the time-plus-random storage filename are modelled as inputs carried by
each incoming file. -/

/-- Does `pat` occur at the head of `s`? -/
def leadsWith : List Char → List Char → Bool
  | [], _ => true
  | _ :: _, [] => false
  | a :: pa, b :: sb => a = b && leadsWith pa sb

/-- Does `pat` occur anywhere in `s`? (JS `RegExp.test` with a literal
alternation performs substring search.) -/
def hasSub (pat : List Char) : List Char → Bool
  | [] => leadsWith pat []
  | c :: rest => leadsWith pat (c :: rest) || hasSub pat rest

/-- `/jpeg|jpg|png|gif|webp/.test(s)`. -/
def imageRegexTest (s : String) : Bool :=
  ["jpeg", "jpg", "png", "gif", "webp"].any (fun p => hasSub p.toList s.toList)

/-- Node's `path.extname`: the tail of the name from its last dot, or `""`
when there is no dot or the only dot starts the (hidden-file style) name. -/
def extname (s : String) : String :=
  let cs := s.toList
  let dotIdxs := (List.range cs.length).filter (fun i => cs.getD i ' ' = '.')
  match dotIdxs.getLast? with
  | none => ""
  | some 0 => ""
  | some i => String.mk (cs.drop i)

/-- One file of the multipart request, together with the identifier and
storage filename the server generates for it (`uuidv4()` and
`Date.now()-random`, modelled as inputs). -/
structure IncomingFile where
  originalname : String
  mimetype : String
  size : Nat
  newId : String
  newFilename : String
deriving DecidableEq, Repr

/-- JS `String.prototype.toLowerCase`, character by character. -/
def lowerString (s : String) : String :=
  String.mk (s.toList.map Char.toLower)

/-- The configured `fileFilter`: extension (lower-cased) and declared
content type must both match the image regex. -/
def fileTypeOk (f : IncomingFile) : Bool :=
  imageRegexTest (lowerString (extname f.originalname)) && imageRegexTest f.mimetype

/-- Upload outcomes: the 404 and the three `MulterError`-driven 400s of
`handleUploadErrors`, the empty-batch 400, and success. The type-violation
error carries the failing file's original name, because the route's own
`fileFilter` raises `MulterError('INVALID_FILE_TYPE', file.originalname)`;
the size-violation error instead carries `err.field`, which for multer's
`LIMIT_FILE_SIZE` is the multipart *field* name the file arrived under —
always `"photos"` for this route (`upload.array('photos', 100)`) — never
the failing file's own name. -/
inductive UploadOutcome where
  | notFound
  | tooManyFiles
  | invalidFileType (originalname : String)
  | fileTooLarge (field : String)
  | noFiles
  | ok (files : List Photo)
deriving DecidableEq, Repr

/-- Scan the streamed files of the `photos` field in arrival order with
`remaining` file slots left (100 at the start): a file past the ceiling
raises the count error; otherwise the `fileFilter` runs before the body
streams, so a bad type is detected before an oversize body. Returns the
first error, if any. A size violation reports the field name `"photos"`
(see `UploadOutcome`), not the file's name. -/
def findUploadError : List IncomingFile → Nat → Option UploadOutcome
  | [], _ => none
  | f :: rest, remaining =>
    if remaining = 0 then some .tooManyFiles
    else if ¬ fileTypeOk f then some (.invalidFileType f.originalname)
    else if f.size > 10 * 1024 * 1024 then some (.fileTooLarge "photos")
    else findUploadError rest (remaining - 1)

/-- `file => ({ id: uuidv4(), filename, originalName, path, size })`. -/
def toPhoto (f : IncomingFile) : Photo :=
  { id := f.newId, filename := f.newFilename, originalName := f.originalname,
    path := "/uploads/" ++ f.newFilename, size := f.size }

/-- The upload route: 404 when the session is not in memory (the disk is
never consulted); then any multer error aborts before the handler body, so
the session is untouched; an empty surviving batch is a 400; otherwise all
`Photo` records are appended in arrival order and the session persisted. -/
def uploadRoute (st : ServerState) (sessionId : String)
    (incoming : List IncomingFile) : ServerState × UploadOutcome :=
  match alookup st.sessions sessionId with
  | none => (st, .notFound)
  | some sess =>
    match findUploadError incoming 100 with
    | some e => (st, e)
    | none =>
      if incoming.isEmpty then (st, .noFiles)
      else
        let newPhotos := incoming.map toPhoto
        let sess' := { sess with photos := sess.photos ++ newPhotos }
        let st' := { st with sessions := aset st.sessions sessionId sess' }
        (saveSession st' sessionId, .ok newPhotos)

/-! ## Basic facts about the model -/

theorem saveSession_sessions (st : ServerState) (sid : String) :
    (saveSession st sid).sessions = st.sessions := by
  unfold saveSession
  cases alookup st.sessions sid <;> rfl

theorem not_mem_filter_ne (l : List String) (v : String) :
    v ∉ l.filter (fun id => id ≠ v) := by
  intro h
  have := (List.mem_filter.mp h).2
  simp at this

theorem filter_ne_stable (l : List String) (v : String) :
    (l.filter (fun id => id ≠ v)).filter (fun id => id ≠ v)
      = l.filter (fun id => id ≠ v) := by
  apply List.filter_eq_self.mpr
  intro a ha
  exact (List.mem_filter.mp ha).2

/-! ## C1: at most one stance per voter per photo -/

/-- The arguments of one `POST /api/vote/:sessionId` request. -/
structure VoteOp where
  sessionId : String
  photoId : String
  voterId : String
  vote : String

/-- Run one vote request against the state; a 404 leaves it unchanged. -/
def applyVote (st : ServerState) (op : VoteOp) : ServerState :=
  match castVote st op.sessionId op.photoId op.voterId op.vote with
  | some (st', _) => st'
  | none => st

/-- Run a sequence of vote requests. -/
def applyVotes (st : ServerState) (ops : List VoteOp) : ServerState :=
  ops.foldl applyVote st

/-- A voter identifier appears in at most one of the two sets. -/
def RecordOneStance (r : VoteRecord) : Prop :=
  ∀ v, ¬ (v ∈ r.upvotes ∧ v ∈ r.downvotes)

def SessionOneStance (sess : Session) : Prop :=
  ∀ pid r, alookup sess.votes pid = some r → RecordOneStance r

def StateOneStance (st : ServerState) : Prop :=
  ∀ sid sess, alookup st.sessions sid = some sess → SessionOneStance sess

/-- Filtering the voter out of both arrays and then pushing into at most
one of them yields a record where the voter holds at most one stance. -/
theorem newRecord_oneStance (r0 : VoteRecord) (voterId vote : String)
    (h0 : RecordOneStance r0) :
    RecordOneStance
      (if vote = "up" then
        { upvotes := r0.upvotes.filter (fun id => id ≠ voterId) ++ [voterId],
          downvotes := r0.downvotes.filter (fun id => id ≠ voterId) }
      else if vote = "down" then
        { upvotes := r0.upvotes.filter (fun id => id ≠ voterId),
          downvotes := r0.downvotes.filter (fun id => id ≠ voterId) ++ [voterId] }
      else
        { upvotes := r0.upvotes.filter (fun id => id ≠ voterId),
          downvotes := r0.downvotes.filter (fun id => id ≠ voterId) }) := by
  intro v hmem
  by_cases h1 : vote = "up"
  · rw [if_pos h1] at hmem
    obtain ⟨hup, hdown⟩ := hmem
    rcases List.mem_append.mp hup with hup' | hup'
    · exact h0 v ⟨(List.mem_filter.mp hup').1, (List.mem_filter.mp hdown).1⟩
    · have hv : v = voterId := by simpa using hup'
      exact not_mem_filter_ne r0.downvotes voterId (hv ▸ hdown)
  · rw [if_neg h1] at hmem
    by_cases h2 : vote = "down"
    · rw [if_pos h2] at hmem
      obtain ⟨hup, hdown⟩ := hmem
      rcases List.mem_append.mp hdown with hd' | hd'
      · exact h0 v ⟨(List.mem_filter.mp hup).1, (List.mem_filter.mp hd').1⟩
      · have hv : v = voterId := by simpa using hd'
        exact not_mem_filter_ne r0.upvotes voterId (hv ▸ hup)
    · rw [if_neg h2] at hmem
      obtain ⟨hup, hdown⟩ := hmem
      exact h0 v ⟨(List.mem_filter.mp hup).1, (List.mem_filter.mp hdown).1⟩

theorem castVote_preserves_oneStance
    {st st' : ServerState} {r : VoteRecord} {sessionId photoId voterId vote : String}
    (hInv : StateOneStance st)
    (h : castVote st sessionId photoId voterId vote = some (st', r)) :
    StateOneStance st' ∧ RecordOneStance r := by
  unfold castVote at h
  cases hs : alookup st.sessions sessionId with
  | none => rw [hs] at h; exact absurd h (by simp)
  | some sess =>
    rw [hs] at h
    simp only [Option.some.injEq, Prod.mk.injEq] at h
    obtain ⟨hst, hr⟩ := h
    have hrec0Inv :
        RecordOneStance
          ((alookup sess.votes photoId).getD { upvotes := [], downvotes := [] }) := by
      cases hv : alookup sess.votes photoId with
      | none =>
        intro v hmem
        exact absurd hmem.1 (by simp)
      | some r0 => exact hInv sessionId sess hs photoId r0 hv
    have hrInv : RecordOneStance r :=
      hr ▸ newRecord_oneStance _ voterId vote hrec0Inv
    refine ⟨?_, hrInv⟩
    intro sid₂ sess₂ hlook₂
    rw [← hst, saveSession_sessions] at hlook₂
    simp only [alookup_aset] at hlook₂
    by_cases hsid : sessionId = sid₂
    · rw [if_pos hsid] at hlook₂
      simp only [Option.some.injEq] at hlook₂
      subst hlook₂
      intro pid₂ r₂ hv₂
      simp only [alookup_aset] at hv₂
      by_cases hpid : photoId = pid₂
      · rw [if_pos hpid] at hv₂
        simp only [Option.some.injEq] at hv₂
        subst hv₂
        exact hr.symm ▸ hrInv
      · rw [if_neg hpid] at hv₂
        exact hInv sessionId sess hs pid₂ r₂ hv₂
    · rw [if_neg hsid] at hlook₂
      exact hInv sid₂ sess₂ hlook₂

theorem applyVotes_preserves_oneStance (ops : List VoteOp) :
    ∀ st : ServerState, StateOneStance st → StateOneStance (applyVotes st ops) := by
  induction ops with
  | nil => intro st h; exact h
  | cons op rest ih =>
    intro st h
    have hstep : StateOneStance (applyVote st op) := by
      unfold applyVote
      cases hc : castVote st op.sessionId op.photoId op.voterId op.vote with
      | none => exact h
      | some q =>
        obtain ⟨st₂, r₂⟩ := q
        exact (castVote_preserves_oneStance h hc).1
    exact ih (applyVote st op) hstep

/-- **C1.** For every session, photo id, and voter id, after any sequence of
`castVote` calls the voter identifier appears in at most one of the two sets
`upvotes` and `downvotes` of the photo's `VoteRecord` (stated as: the
at-most-one-stance invariant is preserved by any sequence of vote requests);
in particular, after `castVote(p, v, "up")` followed by
`castVote(p, v, "down")`, `v` appears in `downvotes` and not in `upvotes`. -/
theorem claim1_at_most_one_stance :
    (∀ (st : ServerState) (ops : List VoteOp),
      StateOneStance st → StateOneStance (applyVotes st ops)) ∧
    (∀ (st st1 st2 : ServerState) (r1 r2 : VoteRecord) (sid pid v : String),
      castVote st sid pid v "up" = some (st1, r1) →
      castVote st1 sid pid v "down" = some (st2, r2) →
      ∃ sess, alookup st2.sessions sid = some sess ∧
        alookup sess.votes pid = some r2 ∧
        v ∈ r2.downvotes ∧ v ∉ r2.upvotes) := by
  constructor
  · intro st ops h
    exact applyVotes_preserves_oneStance ops st h
  · intro st st1 st2 r1 r2 sid pid v _ h2
    unfold castVote at h2
    cases hs1 : alookup st1.sessions sid with
    | none => rw [hs1] at h2; exact absurd h2 (by simp)
    | some sess1 =>
      rw [hs1] at h2
      dsimp only at h2
      rw [if_neg (by decide : ¬ ("down" : String) = "up"),
          if_pos (rfl : ("down" : String) = "down")] at h2
      simp only [Option.some.injEq, Prod.mk.injEq] at h2
      obtain ⟨hst2, hr2⟩ := h2
      subst hst2
      subst hr2
      refine ⟨?_, ?_, ?_, ?_, ?_⟩
      rotate_left
      · rw [saveSession_sessions]
        exact alookup_aset_self st1.sessions sid _
      · exact alookup_aset_self sess1.votes pid _
      · exact List.mem_append_right _ (List.mem_singleton.mpr rfl)
      · exact not_mem_filter_ne _ v

/-! Concrete states exercising the vote ledger: one session `"s"` owned by
`"u"`, a vote by voter `"v"` on photo id `"p"`. -/

def demoSession : Session :=
  { photos := [], votes := [], createdAt := 0, userId := "u", name := "n" }

def demoState : ServerState := { sessions := [("s", demoSession)], disk := [] }

def demoSessionUp : Session :=
  { demoSession with votes := [("p", { upvotes := ["v"], downvotes := [] })] }

def demoStateUp : ServerState :=
  { sessions := [("s", demoSessionUp)], disk := [("s", encodeSession demoSessionUp)] }

def demoSessionDown : Session :=
  { demoSession with votes := [("p", { upvotes := [], downvotes := ["v"] })] }

def demoStateDown : ServerState :=
  { sessions := [("s", demoSessionDown)], disk := [("s", encodeSession demoSessionDown)] }

/-- Witness for C1 at a concrete state: the empty-votes demo state satisfies
the invariant, still does after a vote request, and the up-then-down pair of
requests leaves voter `"v"` only in `downvotes`. -/
theorem claim1_witness :
    StateOneStance demoState ∧
    StateOneStance (applyVotes demoState
      [{ sessionId := "s", photoId := "p", voterId := "v", vote := "up" }]) ∧
    (∃ sess, alookup demoStateDown.sessions "s" = some sess ∧
      alookup sess.votes "p" = some { upvotes := [], downvotes := ["v"] } ∧
      "v" ∈ (VoteRecord.mk [] ["v"]).downvotes ∧
      "v" ∉ (VoteRecord.mk [] ["v"]).upvotes) := by
  have hInv : StateOneStance demoState := by
    intro sid sess h pid r hv
    by_cases hs : "s" = sid
    · simp only [demoState, alookup, if_pos hs, Option.some.injEq] at h
      rw [← h] at hv
      simp [demoSession, alookup] at hv
    · simp [demoState, alookup, hs] at h
  refine ⟨hInv, claim1_at_most_one_stance.1 demoState _ hInv, ?_⟩
  exact claim1_at_most_one_stance.2 demoState demoStateUp demoStateDown
    { upvotes := ["v"], downvotes := [] } { upvotes := [], downvotes := ["v"] }
    "s" "p" "v" rfl rfl

/-! ## C2: casting the same stance twice is idempotent -/

theorem saveSession_eq (st : ServerState) (sid : String) (sess : Session)
    (h : alookup st.sessions sid = some sess) :
    saveSession st sid = { st with disk := aset st.disk sid (encodeSession sess) } := by
  unfold saveSession
  rw [h]

/-- `castVote` on an existing session, written out. -/
theorem castVote_eq (st : ServerState) (sid pid v vote : String) (sess : Session)
    (hs : alookup st.sessions sid = some sess) :
    castVote st sid pid v vote =
      (let rec0 := (alookup sess.votes pid).getD { upvotes := [], downvotes := [] }
       let up1 := rec0.upvotes.filter (fun id => id ≠ v)
       let down1 := rec0.downvotes.filter (fun id => id ≠ v)
       let rec1 : VoteRecord :=
         if vote = "up" then { upvotes := up1 ++ [v], downvotes := down1 }
         else if vote = "down" then { upvotes := up1, downvotes := down1 ++ [v] }
         else { upvotes := up1, downvotes := down1 }
       let sess' := { sess with votes := aset sess.votes pid rec1 }
       some ({ sessions := aset st.sessions sid sess',
               disk := aset st.disk sid (encodeSession sess') }, rec1)) := by
  unfold castVote
  rw [hs]
  dsimp only
  rw [saveSession_eq _ sid _ (alookup_aset_self st.sessions sid _)]

theorem refilter_append_self (l : List String) (v : String) :
    (l.filter (fun id => id ≠ v) ++ [v]).filter (fun id => id ≠ v)
      = l.filter (fun id => id ≠ v) := by
  rw [List.filter_append, filter_ne_stable]
  simp

/-- **C2.** `castVote` is idempotent per voter and stance: for every session,
photo id, voter id, and stance in `{up, down}`, applying `castVote` twice in
a row yields the same server state and the same `VoteRecord` as applying it
once, with the voter present exactly once in the chosen set. -/
theorem claim2_castVote_idempotent :
    ∀ (st st1 st2 : ServerState) (r1 r2 : VoteRecord) (sid pid v vote : String),
      vote = "up" ∨ vote = "down" →
      castVote st sid pid v vote = some (st1, r1) →
      castVote st1 sid pid v vote = some (st2, r2) →
      st2 = st1 ∧ r2 = r1 ∧
      (vote = "up" → r1.upvotes.count v = 1) ∧
      (vote = "down" → r1.downvotes.count v = 1) := by
  intro st st1 st2 r1 r2 sid pid v vote hvote h1 h2
  cases hs : alookup st.sessions sid with
  | none =>
    unfold castVote at h1
    rw [hs] at h1
    exact absurd h1 (by simp)
  | some sess =>
    rw [castVote_eq st sid pid v vote sess hs] at h1
    dsimp only at h1
    rcases hvote with hv | hv <;> subst hv
    · rw [if_pos rfl] at h1
      simp only [Option.some.injEq, Prod.mk.injEq] at h1
      obtain ⟨hst1, hr1⟩ := h1
      subst hst1
      subst hr1
      rw [castVote_eq _ sid pid v "up" _ (alookup_aset_self st.sessions sid _)] at h2
      dsimp only at h2
      rw [if_pos rfl, alookup_aset_self, Option.getD_some] at h2
      dsimp only at h2
      rw [refilter_append_self, filter_ne_stable, aset_aset, aset_aset, aset_aset] at h2
      simp only [Option.some.injEq, Prod.mk.injEq] at h2
      obtain ⟨hst2, hr2⟩ := h2
      refine ⟨hst2.symm, hr2.symm, fun _ => ?_, fun hd => absurd hd (by decide)⟩
      dsimp only
      rw [List.count_append]
      rw [List.count_eq_zero.mpr (not_mem_filter_ne _ v)]
      simp
    · rw [if_neg (by decide : ¬ ("down" : String) = "up"), if_pos rfl] at h1
      simp only [Option.some.injEq, Prod.mk.injEq] at h1
      obtain ⟨hst1, hr1⟩ := h1
      subst hst1
      subst hr1
      rw [castVote_eq _ sid pid v "down" _ (alookup_aset_self st.sessions sid _)] at h2
      dsimp only at h2
      rw [if_neg (by decide : ¬ ("down" : String) = "up"), if_pos rfl,
          alookup_aset_self, Option.getD_some] at h2
      dsimp only at h2
      rw [refilter_append_self, filter_ne_stable, aset_aset, aset_aset, aset_aset] at h2
      simp only [Option.some.injEq, Prod.mk.injEq] at h2
      obtain ⟨hst2, hr2⟩ := h2
      refine ⟨hst2.symm, hr2.symm, fun hu => absurd hu (by decide), fun _ => ?_⟩
      dsimp only
      rw [List.count_append]
      rw [List.count_eq_zero.mpr (not_mem_filter_ne _ v)]
      simp

/-- Witness for C2: voting `"up"` twice from the demo state gives the same
state and record as voting once, with `"v"` counted once in `upvotes`. -/
theorem claim2_witness :
    ("up" = "up" ∨ "up" = "down") ∧
    castVote demoState "s" "p" "v" "up"
      = some (demoStateUp, { upvotes := ["v"], downvotes := [] }) ∧
    castVote demoStateUp "s" "p" "v" "up"
      = some (demoStateUp, { upvotes := ["v"], downvotes := [] }) ∧
    (demoStateUp = demoStateUp ∧
      ({ upvotes := ["v"], downvotes := [] } : VoteRecord)
        = { upvotes := ["v"], downvotes := [] } ∧
      (("up" : String) = "up" →
        (VoteRecord.mk ["v"] []).upvotes.count "v" = 1) ∧
      (("up" : String) = "down" →
        (VoteRecord.mk ["v"] []).downvotes.count "v" = 1)) := by
  refine ⟨Or.inl rfl, rfl, rfl, ?_⟩
  exact claim2_castVote_idempotent demoState demoStateUp demoStateUp
    { upvotes := ["v"], downvotes := [] } { upvotes := ["v"], downvotes := [] }
    "s" "p" "v" "up" (Or.inl rfl) rfl rfl

/-! ## C4: NotFound exactly for a missing session; unknown photo ids accepted -/

/-- **C4.** `castVote` fails with NotFound if and only if the session does
not exist; for an existing session, a `photoId` that references no existing
`Photo` does not cause an error — a fresh `VoteRecord` is silently created
for that `photoId` and the vote is recorded in it. -/
theorem claim4_notFound_iff_sessionless :
    ∀ (st : ServerState) (sid pid v vote : String),
      (castVote st sid pid v vote = none ↔ alookup st.sessions sid = none) ∧
      (∀ sess, alookup st.sessions sid = some sess →
        (∀ p ∈ sess.photos, p.id ≠ pid) →
        alookup sess.votes pid = none →
        ∃ st' r, castVote st sid pid v vote = some (st', r) ∧
          (∃ sess', alookup st'.sessions sid = some sess' ∧
            alookup sess'.votes pid = some r) ∧
          (vote = "up" → r = { upvotes := [v], downvotes := [] }) ∧
          (vote = "down" → r = { upvotes := [], downvotes := [v] })) := by
  intro st sid pid v vote
  constructor
  · cases hs : alookup st.sessions sid with
    | none =>
      refine iff_of_true ?_ rfl
      unfold castVote
      rw [hs]
    | some sess =>
      apply iff_of_false
      · rw [castVote_eq st sid pid v vote sess hs]
        dsimp only
        simp
      · simp
  · intro sess hsess hphotos hvotes
    rw [castVote_eq st sid pid v vote sess hsess]
    dsimp only
    rw [hvotes, Option.getD_none]
    simp only [List.filter_nil]
    exact ⟨_, _, rfl, ⟨_, alookup_aset_self _ _ _, alookup_aset_self _ _ _⟩,
      fun hu => by subst hu; rw [if_pos rfl]; simp,
      fun hd => by
        subst hd
        rw [if_neg (by decide : ¬ ("down" : String) = "up"), if_pos rfl]
        simp⟩

/-- Witness for C4: on an empty server the vote route 404s; on the demo
state, voting on the unknown photo id `"p"` creates its record. -/
theorem claim4_witness :
    (castVote { sessions := [], disk := [] } "s" "p" "v" "up" = none ↔
      alookup (ServerState.mk [] []).sessions "s" = none) ∧
    (∃ st' r, castVote demoState "s" "p" "v" "up" = some (st', r) ∧
      (∃ sess', alookup st'.sessions "s" = some sess' ∧
        alookup sess'.votes "p" = some r) ∧
      (("up" : String) = "up" → r = { upvotes := ["v"], downvotes := [] }) ∧
      (("up" : String) = "down" → r = { upvotes := [], downvotes := ["v"] })) := by
  refine ⟨(claim4_notFound_iff_sessionless { sessions := [], disk := [] } "s" "p" "v" "up").1, ?_⟩
  exact (claim4_notFound_iff_sessionless demoState "s" "p" "v" "up").2 demoSession rfl
    (by simp [demoSession]) rfl

/-! ## C5: an unrecognized stance clears without re-adding -/

/-- **C5.** For every session with an existing photo `VoteRecord` and every
voter, calling `castVote` with any stance value other than `"up"` or
`"down"` removes that voter from both the `upvotes` and `downvotes` sets and
does not add the voter to either set. -/
theorem claim5_unknown_stance_clears :
    ∀ (st : ServerState) (sid pid v vote : String) (sess : Session) (r0 : VoteRecord),
      alookup st.sessions sid = some sess →
      alookup sess.votes pid = some r0 →
      vote ≠ "up" → vote ≠ "down" →
      ∃ st' r, castVote st sid pid v vote = some (st', r) ∧
        r.upvotes = r0.upvotes.filter (fun id => id ≠ v) ∧
        r.downvotes = r0.downvotes.filter (fun id => id ≠ v) ∧
        v ∉ r.upvotes ∧ v ∉ r.downvotes ∧
        ∃ sess', alookup st'.sessions sid = some sess' ∧
          alookup sess'.votes pid = some r := by
  intro st sid pid v vote sess r0 hs hv hup hdown
  rw [castVote_eq st sid pid v vote sess hs]
  dsimp only
  rw [hv, Option.getD_some, if_neg hup, if_neg hdown]
  exact ⟨_, _, rfl, rfl, rfl, not_mem_filter_ne _ v, not_mem_filter_ne _ v,
    ⟨_, alookup_aset_self _ _ _, alookup_aset_self _ _ _⟩⟩

/-- Witness for C5: clearing voter `"v"`'s existing upvote on the demo state
with the unrecognized stance `"clear"` empties both sets. -/
theorem claim5_witness :
    ∃ st' r, castVote demoStateUp "s" "p" "v" "clear" = some (st', r) ∧
      r.upvotes = (VoteRecord.mk ["v"] []).upvotes.filter (fun id => id ≠ "v") ∧
      r.downvotes = (VoteRecord.mk ["v"] []).downvotes.filter (fun id => id ≠ "v") ∧
      "v" ∉ r.upvotes ∧ "v" ∉ r.downvotes ∧
      ∃ sess', alookup st'.sessions "s" = some sess' ∧
        alookup sess'.votes "p" = some r :=
  claim5_unknown_stance_clears demoStateUp "s" "p" "v" "clear" demoSessionUp
    { upvotes := ["v"], downvotes := [] } rfl rfl (by decide) (by decide)

/-! ## C7: persistence round-trip -/

/-- **C7.** For every session `s` in memory, after `save(s)`, clearing the
in-memory session map, and then `load(s)`, the resulting in-memory
`Session` is equal to the `Session` before clearing. -/
theorem claim7_persistence_roundTrip :
    ∀ (st : ServerState) (sid : String) (sess : Session),
      alookup st.sessions sid = some sess →
      ∃ st', loadSession { sessions := [], disk := (saveSession st sid).disk } sid
          = some st' ∧
        alookup st'.sessions sid = some sess := by
  intro st sid sess h
  rw [saveSession_eq st sid sess h]
  unfold loadSession
  dsimp only
  rw [alookup_aset_self]
  simp only [decodeSession_encodeSession]
  exact ⟨_, rfl, alookup_aset_self _ _ _⟩

/-- Witness for C7 on the demo state holding one session with one vote. -/
theorem claim7_witness :
    ∃ st', loadSession { sessions := [], disk := (saveSession demoStateUp "s").disk } "s"
        = some st' ∧
      alookup st'.sessions "s" = some demoSessionUp :=
  claim7_persistence_roundTrip demoStateUp "s" demoSessionUp rfl

/-! ## C9: rename is a trim-guarded overwrite of `name` only -/

/-- **C9.** `rename(sessionId, newName)` on an existing session is a no-op
when `newName` is empty or whitespace-only after trimming; otherwise it
overwrites the session's name with the trimmed name and persists the
session; in both cases every field other than `name` is unchanged (in the
no-op case the whole state, disk file included, is unchanged). -/
theorem claim9_rename_trim_guard :
    ∀ (st : ServerState) (sid : String) (sess : Session) (name : Option String),
      alookup st.sessions sid = some sess →
      ((name = none ∨ ∃ n, name = some n ∧ jsTrim n = "") →
        renameRoute st sid name = some (st, sess.name)) ∧
      (∀ n, name = some n → jsTrim n ≠ "" →
        ∃ st', renameRoute st sid name = some (st', jsTrim n) ∧
          ∃ sess', alookup st'.sessions sid = some sess' ∧
            sess'.name = jsTrim n ∧ sess'.photos = sess.photos ∧
            sess'.votes = sess.votes ∧ sess'.createdAt = sess.createdAt ∧
            sess'.userId = sess.userId ∧
            st'.disk = aset st.disk sid (encodeSession sess') ∧
            ∀ sid₂, sid ≠ sid₂ → alookup st'.sessions sid₂ = alookup st.sessions sid₂) := by
  intro st sid sess name hs
  constructor
  · intro hcase
    unfold renameRoute
    rw [hs]
    rcases hcase with hnone | ⟨n, hn, htrim⟩
    · subst hnone
      rfl
    · subst hn
      dsimp only
      rw [if_neg (fun hc => hc.2 htrim)]
  · intro n hn htrim
    subst hn
    unfold renameRoute
    rw [hs]
    dsimp only
    have hne : n ≠ "" := by
      intro he
      subst he
      exact htrim rfl
    rw [if_pos ⟨hne, htrim⟩]
    rw [saveSession_eq _ sid _ (alookup_aset_self st.sessions sid _)]
    exact ⟨_, rfl, _, alookup_aset_self _ _ _, rfl, rfl, rfl, rfl, rfl, rfl,
      fun sid₂ hne₂ => by
        dsimp only
        exact alookup_aset_ne st.sessions hne₂ _⟩

/-- Witness for C9: renaming the demo session with a whitespace-only name
is a no-op, and with `" new "` it stores the trimmed name `"new"`. -/
theorem claim9_witness :
    renameRoute demoState "s" (some "   ") = some (demoState, demoSession.name) ∧
    (∃ st', renameRoute demoState "s" (some " new ") = some (st', jsTrim " new ") ∧
      ∃ sess', alookup st'.sessions "s" = some sess' ∧
        sess'.name = jsTrim " new " ∧ sess'.photos = demoSession.photos ∧
        sess'.votes = demoSession.votes ∧ sess'.createdAt = demoSession.createdAt ∧
        sess'.userId = demoSession.userId ∧
        st'.disk = aset demoState.disk "s" (encodeSession sess') ∧
        ∀ sid₂, "s" ≠ sid₂ →
          alookup st'.sessions sid₂ = alookup demoState.sessions sid₂) := by
  have h := claim9_rename_trim_guard demoState "s" demoSession (some "   ") rfl
  have h2 := claim9_rename_trim_guard demoState "s" demoSession (some " new ") rfl
  exact ⟨h.1 (Or.inr ⟨"   ", rfl, rfl⟩), h2.2 " new " rfl (by decide)⟩

/-! ## C10: only the session and results routes rehydrate from disk -/

/-- **C10.** For a session whose file exists on disk but is absent from the
in-memory map, `get(sessionId)` and `rank(sessionId)` load it and succeed,
while `castVote` and `addPhotos` for that same session signal NotFound
without consulting persisted storage. -/
theorem claim10_lazy_rehydration :
    ∀ (st : ServerState) (sid : String) (sess : Session),
      alookup st.sessions sid = none →
      alookup st.disk sid = some (encodeSession sess) →
      (∃ st', getSessionRoute st sid = some (st', sess) ∧
        alookup st'.sessions sid = some sess) ∧
      (∃ st', resultsRoute st sid = some (st', computeResults sess)) ∧
      (∀ pid v vote, castVote st sid pid v vote = none) ∧
      (∀ incoming, uploadRoute st sid incoming = (st, .notFound)) := by
  intro st sid sess hmem hdisk
  have hload : loadSession st sid
      = some { st with sessions := aset st.sessions sid sess } := by
    unfold loadSession
    rw [hdisk]
    simp only [decodeSession_encodeSession]
  refine ⟨?_, ?_, ?_, ?_⟩
  · unfold getSessionRoute
    rw [hmem, hload]
    dsimp only
    rw [alookup_aset_self]
    exact ⟨_, rfl, alookup_aset_self _ _ _⟩
  · unfold resultsRoute
    rw [hmem, hload]
    dsimp only
    rw [alookup_aset_self]
    exact ⟨_, rfl⟩
  · intro pid v vote
    unfold castVote
    rw [hmem]
  · intro incoming
    unfold uploadRoute
    rw [hmem]

/-- Witness for C10: a state whose memory is empty but whose disk holds the
demo session. -/
theorem claim10_witness :
    (∃ st', getSessionRoute
        { sessions := [], disk := [("s", encodeSession demoSessionUp)] } "s"
        = some (st', demoSessionUp) ∧
      alookup st'.sessions "s" = some demoSessionUp) ∧
    (∃ st', resultsRoute
        { sessions := [], disk := [("s", encodeSession demoSessionUp)] } "s"
        = some (st', computeResults demoSessionUp)) ∧
    (∀ pid v vote, castVote
        { sessions := [], disk := [("s", encodeSession demoSessionUp)] } "s" pid v vote
        = none) ∧
    (∀ incoming, uploadRoute
        { sessions := [], disk := [("s", encodeSession demoSessionUp)] } "s" incoming
        = ({ sessions := [], disk := [("s", encodeSession demoSessionUp)] },
           UploadOutcome.notFound)) :=
  claim10_lazy_rehydration
    { sessions := [], disk := [("s", encodeSession demoSessionUp)] } "s"
    demoSessionUp rfl rfl

/-! ## C8: per-owner project listing -/

theorem createdDescLe_trans (a b c : ProjectSummary) :
    createdDescLe a b → createdDescLe b c → createdDescLe a c := by
  simp only [createdDescLe, decide_eq_true_eq]
  omega

theorem createdDescLe_total (a b : ProjectSummary) :
    createdDescLe a b || createdDescLe b a := by
  simp only [createdDescLe]
  rcases Nat.le_total b.createdAt a.createdAt with h | h <;> simp [h]

theorem sessionVoteCount_eq_sum (sess : Session) :
    sessionVoteCount sess
      = (sess.votes.map (fun p => p.2.upvotes.length + p.2.downvotes.length)).sum := by
  unfold sessionVoteCount
  suffices h : ∀ (l : List (String × VoteRecord)) (n : Nat),
      l.foldl (fun total p => total + p.2.upvotes.length + p.2.downvotes.length) n
        = n + (l.map (fun p => p.2.upvotes.length + p.2.downvotes.length)).sum by
    simpa using h sess.votes 0
  intro l
  induction l with
  | nil => intro n; simp
  | cons a l ih => intro n; simp [ih]; omega

/-- **C8.** `listByOwner(ownerId)` returns, for exactly the sessions whose
`ownerId` equals the given identifier, summaries
`{id, name, createdAt, photoCount, voteCount}` where `voteCount` is the sum
of `|upvotes| + |downvotes|` over all `VoteRecord`s of the session, ordered
by `createdAt` descending (newest first); when `ownerId` is absent or
matches no session it returns an empty sequence, never an error. -/
theorem claim8_listByOwner :
    (∀ (sessions : List (String × Session)) (uid : String),
      (listProjects sessions (some uid)).Perm
        ((sessions.filter (fun p => p.2.userId = uid)).map
          (fun p => toSummary p.1 p.2)) ∧
      (listProjects sessions (some uid)).Pairwise
        (fun a b => b.createdAt ≤ a.createdAt) ∧
      (∀ r, r ∈ listProjects sessions (some uid) →
        ∃ p, p ∈ sessions ∧ p.2.userId = uid ∧ r = toSummary p.1 p.2) ∧
      ((∀ p ∈ sessions, p.2.userId ≠ uid) → listProjects sessions (some uid) = [])) ∧
    (∀ sessions, listProjects sessions none = []) ∧
    (∀ (sid : String) (sess : Session),
      (toSummary sid sess).id = sid ∧ (toSummary sid sess).name = sess.name ∧
      (toSummary sid sess).createdAt = sess.createdAt ∧
      (toSummary sid sess).photoCount = sess.photos.length ∧
      (toSummary sid sess).voteCount
        = (sess.votes.map (fun p => p.2.upvotes.length + p.2.downvotes.length)).sum) := by
  refine ⟨?_, fun sessions => rfl, fun sid sess =>
    ⟨rfl, rfl, rfl, rfl, sessionVoteCount_eq_sum sess⟩⟩
  intro sessions uid
  refine ⟨List.mergeSort_perm _ _, ?_, ?_, ?_⟩
  · exact (List.sorted_mergeSort createdDescLe_trans createdDescLe_total _).imp
      (fun h => by simpa [createdDescLe] using h)
  · intro r hr
    have hr' := (List.mergeSort_perm _ createdDescLe).mem_iff.mp hr
    obtain ⟨p, hp, hr''⟩ := List.mem_map.mp hr'
    exact ⟨p, (List.mem_filter.mp hp).1,
      by simpa using (List.mem_filter.mp hp).2, hr''.symm⟩
  · intro hnone
    unfold listProjects
    dsimp only
    have hfil : sessions.filter (fun p => p.2.userId = uid) = [] := by
      rw [List.filter_eq_nil_iff]
      intro p hp
      simpa using hnone p hp
    rw [hfil]
    simp

def sessAlice1 : Session :=
  { photos := [], votes := [], createdAt := 5, userId := "alice", name := "one" }

def sessAlice2 : Session :=
  { photos := [], votes := [], createdAt := 9, userId := "alice", name := "two" }

/-- Witness for C8 at a concrete store with two sessions owned by
`"alice"`: the listing is a sorted permutation of the matching summaries,
while an unknown owner and a missing cookie both give the empty list. -/
theorem claim8_witness :
    (listProjects [("s1", sessAlice1), ("s2", sessAlice2)] (some "alice")).Perm
      (([("s1", sessAlice1), ("s2", sessAlice2)].filter
          (fun p => p.2.userId = "alice")).map (fun p => toSummary p.1 p.2)) ∧
    (listProjects [("s1", sessAlice1), ("s2", sessAlice2)] (some "alice")).Pairwise
      (fun a b => b.createdAt ≤ a.createdAt) ∧
    listProjects [("s1", sessAlice1), ("s2", sessAlice2)] (some "bob") = [] ∧
    listProjects [("s1", sessAlice1), ("s2", sessAlice2)] none = [] := by
  refine ⟨(claim8_listByOwner.1 _ "alice").1, (claim8_listByOwner.1 _ "alice").2.1,
    (claim8_listByOwner.1 _ "bob").2.2.2 ?_, claim8_listByOwner.2.1 _⟩
  decide

/-! ## C3: ranked results -/

theorem scoreDescLe_trans (a b c : PhotoResult) :
    scoreDescLe a b → scoreDescLe b c → scoreDescLe a c := by
  simp only [scoreDescLe, decide_eq_true_eq]
  omega

theorem scoreDescLe_total (a b : PhotoResult) :
    scoreDescLe a b || scoreDescLe b a := by
  simp only [scoreDescLe]
  rcases Int.le_total b.score a.score with h | h <;> simp [h]

def photoA : Photo :=
  { id := "A", filename := "a.jpg", originalName := "a.jpg",
    path := "/uploads/a.jpg", size := 1 }

def photoB : Photo :=
  { id := "B", filename := "b.jpg", originalName := "b.jpg",
    path := "/uploads/b.jpg", size := 1 }

def photoC : Photo :=
  { id := "C", filename := "c.jpg", originalName := "c.jpg",
    path := "/uploads/c.jpg", size := 1 }

/-- A (2 up, 0 down), B (1 up, 1 down), C (no record), uploaded A,B,C. -/
def demoRankSession : Session :=
  { photos := [photoA, photoB, photoC],
    votes := [("A", { upvotes := ["v1", "v2"], downvotes := [] }),
              ("B", { upvotes := ["v1"], downvotes := ["v2"] })],
    createdAt := 0, userId := "u", name := "n" }

def resultA : PhotoResult :=
  { id := "A", filename := "a.jpg", originalName := "a.jpg",
    path := "/uploads/a.jpg", size := 1, upvotes := 2, downvotes := 0, score := 2 }

def resultB : PhotoResult :=
  { id := "B", filename := "b.jpg", originalName := "b.jpg",
    path := "/uploads/b.jpg", size := 1, upvotes := 1, downvotes := 1, score := 0 }

def resultC : PhotoResult :=
  { id := "C", filename := "c.jpg", originalName := "c.jpg",
    path := "/uploads/c.jpg", size := 1, upvotes := 0, downvotes := 0, score := 0 }

/-- **C3.** `rank(sessionId)` produces one `PhotoResult` for every `Photo`
in the session (a photo with no `VoteRecord` is counted as zero upvotes and
zero downvotes), with `score = |upvotes| - |downvotes|`, sorted descending
by score; photos with equal scores retain their original upload order; and
on the concrete session A (2 up), B (1 up, 1 down), C (no votes) uploaded
in order A,B,C the result is `[A: 2, B: 0, C: 0]` with B before C. -/
theorem claim3_rank_sorted_stable_scores :
    (∀ sess : Session,
      (computeResults sess).Perm (sess.photos.map (toPhotoResult sess.votes)) ∧
      (computeResults sess).length = sess.photos.length ∧
      (computeResults sess).Pairwise (fun a b => b.score ≤ a.score) ∧
      (∀ p, p ∈ sess.photos → toPhotoResult sess.votes p ∈ computeResults sess) ∧
      (∀ p : Photo,
        (toPhotoResult sess.votes p).upvotes
          = ((alookup sess.votes p.id).getD
              { upvotes := [], downvotes := [] }).upvotes.length ∧
        (toPhotoResult sess.votes p).downvotes
          = ((alookup sess.votes p.id).getD
              { upvotes := [], downvotes := [] }).downvotes.length ∧
        (toPhotoResult sess.votes p).score
          = ((toPhotoResult sess.votes p).upvotes : Int)
            - ((toPhotoResult sess.votes p).downvotes : Int)) ∧
      (∀ p : Photo, alookup sess.votes p.id = none →
        (toPhotoResult sess.votes p).upvotes = 0 ∧
        (toPhotoResult sess.votes p).downvotes = 0 ∧
        (toPhotoResult sess.votes p).score = 0) ∧
      (∀ a b : PhotoResult, a.score = b.score →
        [a, b].Sublist (sess.photos.map (toPhotoResult sess.votes)) →
        [a, b].Sublist (computeResults sess))) ∧
    computeResults demoRankSession = [resultA, resultB, resultC] := by
  constructor
  · intro sess
    refine ⟨List.mergeSort_perm _ _, ?_, ?_, ?_, fun p => ⟨rfl, rfl, rfl⟩, ?_, ?_⟩
    · simp [computeResults]
    · exact (List.sorted_mergeSort scoreDescLe_trans scoreDescLe_total _).imp
        (fun h => by simpa [scoreDescLe] using h)
    · intro p hp
      exact List.mem_mergeSort.mpr (List.mem_map_of_mem _ hp)
    · intro p h
      refine ⟨?_, ?_, ?_⟩ <;> simp [toPhotoResult, h]
    · intro a b hab hsub
      exact List.pair_sublist_mergeSort scoreDescLe_trans scoreDescLe_total
        (by simp [scoreDescLe, hab]) hsub
  · unfold computeResults
    have hm : demoRankSession.photos.map (toPhotoResult demoRankSession.votes)
        = [resultA, resultB, resultC] := by decide
    rw [hm]
    exact List.mergeSort_of_sorted (by decide)

/-- Witness for C3 at the concrete A/B/C session: sorted output, membership
of A's result, the zero default for C, and the stable B-before-C pair. -/
theorem claim3_witness :
    (computeResults demoRankSession).Pairwise (fun a b => b.score ≤ a.score) ∧
    toPhotoResult demoRankSession.votes photoA ∈ computeResults demoRankSession ∧
    ((toPhotoResult demoRankSession.votes photoC).upvotes = 0 ∧
      (toPhotoResult demoRankSession.votes photoC).downvotes = 0 ∧
      (toPhotoResult demoRankSession.votes photoC).score = 0) ∧
    [resultB, resultC].Sublist (computeResults demoRankSession) := by
  have h := claim3_rank_sorted_stable_scores.1 demoRankSession
  exact ⟨h.2.2.1, h.2.2.2.1 photoA (by decide), h.2.2.2.2.2.1 photoC rfl,
    h.2.2.2.2.2.2 resultB resultC rfl (by decide)⟩

/-! ## C6: the whole upload batch is rejected on any invalid file -/

theorem findUploadError_none (l : List IncomingFile) (n : Nat)
    (hok : ∀ f ∈ l, fileTypeOk f = true ∧ f.size ≤ 10 * 1024 * 1024)
    (hlen : l.length ≤ n) :
    findUploadError l n = none := by
  induction l generalizing n with
  | nil => rfl
  | cons f rest ih =>
    have hn : n ≠ 0 := by simp at hlen; omega
    obtain ⟨ht, hsz⟩ := hok f (List.mem_cons_self f rest)
    unfold findUploadError
    rw [if_neg hn, if_neg (by simp [ht]), if_neg (by omega)]
    exact ih (n - 1) (fun g hg => hok g (List.mem_cons_of_mem f hg))
      (by simp at hlen; omega)

theorem findUploadError_finds (l : List IncomingFile) (n : Nat)
    (hlen : l.length ≤ n)
    (hbad : ∃ f ∈ l, ¬ (fileTypeOk f = true ∧ f.size ≤ 10 * 1024 * 1024)) :
    ∃ f ∈ l,
      (fileTypeOk f = false ∧
        findUploadError l n = some (.invalidFileType f.originalname)) ∨
      (fileTypeOk f = true ∧ 10 * 1024 * 1024 < f.size ∧
        findUploadError l n = some (.fileTooLarge "photos")) := by
  induction l generalizing n with
  | nil =>
    obtain ⟨f, hf, _⟩ := hbad
    exact absurd hf (by simp)
  | cons f rest ih =>
    have hn : n ≠ 0 := by simp at hlen; omega
    by_cases ht : fileTypeOk f
    · by_cases hsz : 10 * 1024 * 1024 < f.size
      · refine ⟨f, List.mem_cons_self f rest, Or.inr ⟨ht, hsz, ?_⟩⟩
        unfold findUploadError
        rw [if_neg hn, if_neg (by simp [ht]), if_pos hsz]
      · have hbad' : ∃ g ∈ rest, ¬ (fileTypeOk g = true ∧ g.size ≤ 10 * 1024 * 1024) := by
          obtain ⟨g, hg, hgbad⟩ := hbad
          rcases List.mem_cons.mp hg with hgf | hg'
          · subst hgf
            exact absurd ⟨ht, by omega⟩ hgbad
          · exact ⟨g, hg', hgbad⟩
        have hunfold : findUploadError (f :: rest) n = findUploadError rest (n - 1) := by
          conv_lhs => unfold findUploadError
          rw [if_neg hn, if_neg (by simp [ht]), if_neg hsz]
        obtain ⟨g, hg, hres⟩ := ih (n - 1) (by simp at hlen; omega) hbad'
        refine ⟨g, List.mem_cons_of_mem f hg, ?_⟩
        rcases hres with ⟨h1, h2⟩ | ⟨h1, h2, h3⟩
        · exact Or.inl ⟨h1, hunfold.trans h2⟩
        · exact Or.inr ⟨h1, h2, hunfold.trans h3⟩
    · refine ⟨f, List.mem_cons_self f rest, Or.inl ⟨by simpa using ht, ?_⟩⟩
      unfold findUploadError
      rw [if_neg hn, if_pos (by simpa using ht)]

/-- **C6 (amended).** `addPhotos` rejects an upload batch in its entirety
when any single file fails the format or size policy, and no `Photo` record
from the batch is appended (the state is unchanged). The reported
ValidationError names the rule in every case, but names the failing file
only for a format violation (the `fileFilter` raises the error with
`file.originalname`); a size violation reports the constant multipart field
name `"photos"` (multer's `LIMIT_FILE_SIZE` carries `file.fieldname`), not
the failing file's name. An all-valid non-empty batch within the 100-file
ceiling is appended whole, in arrival order. -/
theorem claim6_upload_batch_atomic :
    ∀ (st : ServerState) (sid : String) (sess : Session)
      (incoming : List IncomingFile),
      alookup st.sessions sid = some sess →
      (incoming.length ≤ 100 →
        (∃ f ∈ incoming, ¬ (fileTypeOk f = true ∧ f.size ≤ 10 * 1024 * 1024)) →
        (∃ f ∈ incoming,
          (fileTypeOk f = false ∧
            (uploadRoute st sid incoming).2 = .invalidFileType f.originalname) ∨
          (fileTypeOk f = true ∧ 10 * 1024 * 1024 < f.size ∧
            (uploadRoute st sid incoming).2 = .fileTooLarge "photos")) ∧
          (uploadRoute st sid incoming).1 = st) ∧
      ((∀ f ∈ incoming, fileTypeOk f = true ∧ f.size ≤ 10 * 1024 * 1024) →
        incoming ≠ [] → incoming.length ≤ 100 →
        ∃ st', uploadRoute st sid incoming = (st', .ok (incoming.map toPhoto)) ∧
          ∃ sess', alookup st'.sessions sid = some sess' ∧
            sess'.photos = sess.photos ++ incoming.map toPhoto ∧
            ∀ sid₂, sid ≠ sid₂ →
              alookup st'.sessions sid₂ = alookup st.sessions sid₂) := by
  intro st sid sess incoming hs
  constructor
  · intro hlen hbad
    obtain ⟨f, hf, hres⟩ := findUploadError_finds incoming 100 hlen hbad
    have hroute : ∀ e, findUploadError incoming 100 = some e →
        uploadRoute st sid incoming = (st, e) := by
      intro e he
      unfold uploadRoute
      rw [hs]
      dsimp only
      rw [he]
    rcases hres with ⟨h1, h2⟩ | ⟨h1, h2, h3⟩
    · exact ⟨⟨f, hf, Or.inl ⟨h1, by rw [hroute _ h2]⟩⟩, by rw [hroute _ h2]⟩
    · exact ⟨⟨f, hf, Or.inr ⟨h1, h2, by rw [hroute _ h3]⟩⟩, by rw [hroute _ h3]⟩
  · intro hok hne hlen
    unfold uploadRoute
    rw [hs]
    dsimp only
    rw [findUploadError_none incoming 100 hok hlen]
    rw [if_neg (fun hc => hne (List.isEmpty_iff.mp hc))]
    rw [saveSession_eq _ sid _ (alookup_aset_self st.sessions sid _)]
    exact ⟨_, rfl, _, alookup_aset_self _ _ _, rfl,
      fun sid₂ hne₂ => by
        dsimp only
        exact alookup_aset_ne st.sessions hne₂ _⟩

def jpgFile1 : IncomingFile :=
  { originalname := "one.jpg", mimetype := "image/jpeg", size := 100,
    newId := "i1", newFilename := "n1.jpg" }

def jpgFile2 : IncomingFile :=
  { originalname := "two.jpg", mimetype := "image/jpeg", size := 100,
    newId := "i2", newFilename := "n2.jpg" }

def jpgFile3 : IncomingFile :=
  { originalname := "three.jpg", mimetype := "image/jpeg", size := 100,
    newId := "i3", newFilename := "n3.jpg" }

def jpgFile4 : IncomingFile :=
  { originalname := "four.jpg", mimetype := "image/jpeg", size := 100,
    newId := "i4", newFilename := "n4.jpg" }

def txtFile : IncomingFile :=
  { originalname := "bad.txt", mimetype := "text/plain", size := 100,
    newId := "i5", newFilename := "n5.txt" }

/-- Witness for C6: a `.txt` file among four `.jpg` files makes the upload
route reject the whole batch (naming `bad.txt` for the format rule) and
leave the demo state unchanged, while the four `.jpg` files alone are
appended whole. -/
theorem claim6_witness :
    ((∃ f ∈ [jpgFile1, jpgFile2, txtFile, jpgFile3, jpgFile4],
      (fileTypeOk f = false ∧
        (uploadRoute demoState "s"
            [jpgFile1, jpgFile2, txtFile, jpgFile3, jpgFile4]).2
          = .invalidFileType f.originalname) ∨
      (fileTypeOk f = true ∧ 10 * 1024 * 1024 < f.size ∧
        (uploadRoute demoState "s"
            [jpgFile1, jpgFile2, txtFile, jpgFile3, jpgFile4]).2
          = .fileTooLarge "photos")) ∧
      (uploadRoute demoState "s"
          [jpgFile1, jpgFile2, txtFile, jpgFile3, jpgFile4]).1 = demoState) ∧
    (∃ st', uploadRoute demoState "s" [jpgFile1, jpgFile2, jpgFile3, jpgFile4]
        = (st', .ok ([jpgFile1, jpgFile2, jpgFile3, jpgFile4].map toPhoto)) ∧
      ∃ sess', alookup st'.sessions "s" = some sess' ∧
        sess'.photos = demoSession.photos
          ++ [jpgFile1, jpgFile2, jpgFile3, jpgFile4].map toPhoto ∧
        ∀ sid₂, "s" ≠ sid₂ →
          alookup st'.sessions sid₂ = alookup demoState.sessions sid₂) := by
  have h1 := claim6_upload_batch_atomic demoState "s" demoSession
    [jpgFile1, jpgFile2, txtFile, jpgFile3, jpgFile4] rfl
  have h2 := claim6_upload_batch_atomic demoState "s" demoSession
    [jpgFile1, jpgFile2, jpgFile3, jpgFile4] rfl
  exact ⟨h1.1 (by decide) ⟨txtFile, by decide, by decide⟩,
    h2.2 (by decide) (by decide) (by decide)⟩

/-- An oversized but correctly-typed jpeg (one byte past the 10 MiB
ceiling). -/
def bigJpgFile : IncomingFile :=
  { originalname := "big.jpg", mimetype := "image/jpeg", size := 10485761,
    newId := "i6", newFilename := "n6.jpg" }

/-- Counterexample to C6 as stated: for a batch whose single file
`big.jpg` passes the format check but violates the size rule, the route's
400 carries the multipart field name `"photos"` — not the failing file's
name — so a size-violation rejection does not name the failing file. -/
theorem claim6_counterexample :
    (uploadRoute demoState "s" [bigJpgFile]).2 = UploadOutcome.fileTooLarge "photos" ∧
    fileTypeOk bigJpgFile = true ∧
    10 * 1024 * 1024 < bigJpgFile.size ∧
    bigJpgFile.originalname ≠ "photos" := by
  exact ⟨by decide, by decide, by decide, by decide⟩

end PhotoVote
